import Mathlib

/-!
Verification of the `nlch` command-line assistant (Go) against its
natural-language specification.

Go strings are modelled as `List Char` (`GoStr`).  The Go standard-library
string operations used by the program (`strings.TrimSpace`, `strings.Split`,
`strings.Join`, `strings.Trim`, `strings.HasPrefix`, `strings.Contains`,
`strings.ToLower`) are embedded as executable Lean functions below, and the
program's own functions (`cleanCommand`, `IsDangerousCommand`,
`Executor.Run`, the provider request builders, `BuildPrompt`, and the
`main` generation/execution pipeline with its retry controller) are
translated from the source on top of them.
-/

namespace Nlch

/-- A Go string, modelled as its sequence of characters. -/
abbrev GoStr := List Char

/-- `unicode.IsSpace` as used by Go's `strings.TrimSpace`, restricted to the
whitespace characters that can actually occur here: ASCII whitespace plus
NEL and NBSP and the Unicode space separators. -/
def goIsSpace (c : Char) : Bool :=
  c == ' ' || c == '\t' || c == '\n' || c.toNat == 0x0b || c.toNat == 0x0c ||
  c == '\r' || c.toNat == 0x85 || c.toNat == 0xa0 || c.toNat == 0x1680 ||
  (0x2000 <= c.toNat && c.toNat <= 0x200a) || c.toNat == 0x2028 ||
  c.toNat == 0x2029 || c.toNat == 0x202f || c.toNat == 0x205f ||
  c.toNat == 0x3000

/-- Go `strings.TrimSpace`: drop whitespace from both ends. -/
def goTrimSpace (s : GoStr) : GoStr :=
  (s.dropWhile goIsSpace).rdropWhile goIsSpace

/-- Go `strings.Trim(s, cutset)`: drop characters of the cutset from both
ends. -/
def goTrim (cutset : GoStr) (s : GoStr) : GoStr :=
  (s.dropWhile cutset.contains).rdropWhile cutset.contains

/-- Go `strings.HasPrefix`. -/
def hasPfx (pre s : GoStr) : Bool :=
  match pre, s with
  | [], _ => true
  | _ :: _, [] => false
  | p :: ps, c :: cs => p = c && hasPfx ps cs

/-- Go `strings.Contains sub` (substring membership). -/
def containsSub (sub : GoStr) : GoStr → Bool
  | [] => sub.isEmpty
  | c :: cs => hasPfx sub (c :: cs) || containsSub sub cs

/-- Go `strings.ToLower`, restricted to ASCII letters (the only letters that
occur in the dangerous-keyword scan). -/
def goToLower (s : GoStr) : GoStr :=
  s.map fun c => if 'A' ≤ c ∧ c ≤ 'Z' then Char.ofNat (c.toNat + 32) else c

/-- Go `strings.Split(s, "\n")`. -/
def splitNl : GoStr → List GoStr
  | [] => [[]]
  | c :: cs =>
    let r := splitNl cs
    if c = '\n' then [] :: r
    else
      match r with
      | [] => [[c]]
      | l :: ls => (c :: l) :: ls

/-- Go `strings.Join(lines, "\n")`. -/
def joinNl (lines : List GoStr) : GoStr :=
  (lines.intersperse ['\n']).flatten

/-! ## `internal/shell/safety.go` -/

/-- List of dangerous commands requiring extra confirmation
(`dangerousCommands` in `safety.go`). -/
def dangerousCommands : List GoStr :=
  ["rm".data, "dd".data, "mkfs".data, "shutdown".data, "reboot".data,
   "init 0".data, "halt".data]

/-- `IsDangerousCommand` from `safety.go`: lower-case the command and test
each dangerous keyword for substring membership. -/
def IsDangerousCommand (cmd : GoStr) : Bool :=
  let lower := goToLower cmd
  dangerousCommands.any fun danger => containsSub danger lower

/-! ## `cleanCommand` (response sanitizer, from `main.go`) -/

/-- The triple-backtick fence marker. -/
def fence : GoStr := "```".data

/-- The backtick cutset used by `strings.Trim(cmd, "`")`. -/
def backquoteCut : GoStr := "`".data

/-- The markdown-fence stripping step of `cleanCommand` (`main.go`): if the
trimmed response starts with a fence, drop the fence's first line and the
closing fence line, rejoin and re-trim. -/
def stripFences (cmd : GoStr) : GoStr :=
  if hasPfx fence cmd then
    let lines := splitNl cmd
    let lines := if 1 < lines.length then lines.drop 1 else lines
    let lines :=
      match lines.getLast? with
      | some last => if hasPfx fence last then lines.dropLast else lines
      | none => lines
    goTrimSpace (joinNl lines)
  else cmd

/-- The full formatting-stripping stage of `cleanCommand`: fence removal,
then `strings.Trim(cmd, "`")`, then `strings.TrimSpace`. -/
def stripWrap (cmd : GoStr) : GoStr :=
  goTrimSpace (goTrim backquoteCut (stripFences cmd))

/-- The final loop of `cleanCommand`: the first line whose trimmed form is
non-empty and does not start with `#`, if any. -/
def firstCmdLine : List GoStr → Option GoStr
  | [] => none
  | l :: ls =>
    let line := goTrimSpace l
    if line ≠ [] ∧ hasPfx ['#'] line = false then some line
    else firstCmdLine ls

/-- `cleanCommand` from `main.go`: trim the raw response, return it if
empty, strip markdown fences and stray backticks, then return the first
non-empty non-comment line — falling back to the stripped string itself if
no such line exists. -/
def cleanCommand (raw : GoStr) : GoStr :=
  let cmd := goTrimSpace raw
  if cmd = [] then cmd
  else
    let cmd := stripWrap cmd
    match firstCmdLine (splitNl cmd) with
    | some line => line
    | none => cmd

/-! ## `Executor.Run` (`internal/shell`, output-capturing variant) -/

/-- The result of one subprocess execution: captured stdout and stderr, and
the error, if any, carried as its message string. -/
structure CmdResult where
  stdout : GoStr
  stderr : GoStr
  err : Option GoStr
  deriving DecidableEq

/-- `Executor` handles command execution with dry-run and confirmation
support. -/
structure Executor where
  DryRun : Bool
  deriving DecidableEq

/-- The `> Running command ...` line printed at the start of every
`Executor.Run` call. -/
def runningMsg (cmd : GoStr) : GoStr :=
  "> Running command `".data ++ cmd ++ "`...".data

/-- The dry-run notice. -/
def dryRunMsg : GoStr := "> This was a dry-run, thus no action was taken.".data

/-- The interactive confirmation question. -/
def confirmMsg : GoStr := "> Confirm? [Y/n]: ".data

/-- The abort notice printed on a negative confirmation response. -/
def abortedMsg : GoStr := "> Aborted by user.".data

/-- Everything observable about one `Executor.Run` call: whether the
confirmation question was asked, whether a subprocess was spawned, the
captured output and error, and the lines `Run` itself printed (the
real-time mirroring of captured output is subsumed by the `stdout`/`stderr`
fields). -/
structure RunOutcome where
  prompted : Bool
  spawned : Bool
  stdout : GoStr
  stderr : GoStr
  err : Option GoStr
  printed : List GoStr
  deriving DecidableEq

/-- The executor's test `resp != "" && (resp[0] == 'n' || resp[0] == 'N')`
on the interactive response. -/
def isNegative : GoStr → Bool
  | [] => false
  | c :: _ => c == 'n' || c == 'N'

/-- `Executor.Run`: honour `DryRun`, otherwise ask for confirmation when
required (aborting on a leading `n`/`N`), otherwise hand the command to the
shell, modelled by `sys`. -/
def Executor.Run (e : Executor) (cmd : GoStr) (requireConfirm : Bool)
    (resp : GoStr) (sys : GoStr → CmdResult) : RunOutcome :=
  if e.DryRun then
    { prompted := false, spawned := false, stdout := [], stderr := [],
      err := none, printed := [runningMsg cmd, dryRunMsg] }
  else if requireConfirm && isNegative resp then
    { prompted := true, spawned := false, stdout := [], stderr := [],
      err := none, printed := [runningMsg cmd, confirmMsg, abortedMsg] }
  else
    let r := sys cmd
    { prompted := requireConfirm, spawned := true, stdout := r.stdout,
      stderr := r.stderr, err := r.err,
      printed :=
        if requireConfirm then [runningMsg cmd, confirmMsg]
        else [runningMsg cmd] }

/-! ## Provider abstraction (`internal/provider`) -/

/-- `ProviderOptions` from `provider.go`. -/
structure ProviderOptions where
  Model : GoStr
  Provider : GoStr
  deriving DecidableEq

/-- `ProviderConfig` from `config.go`. -/
structure ProviderConfig where
  Key : GoStr
  DefaultModel : GoStr
  URL : GoStr
  deriving DecidableEq

/-- The fixed system message every backend sends. -/
def assistantSystemMsg : GoStr :=
  "You are a helpful assistant that generates safe, concise shell commands for the user's request.".data

/-- An OpenAI-style chat-completion request body, abstracted to its fields
(the JSON marshalling and the constant float temperature 0.2 are not
modelled). -/
structure ChatRequest where
  model : GoStr
  system : GoStr
  user : GoStr
  maxTokens : Nat
  deriving DecidableEq

/-- `BuildOpenAIStyleRequestBody` from `provider.go`. -/
def BuildOpenAIStyleRequestBody (model promptStr : GoStr) : ChatRequest :=
  { model := model, system := assistantSystemMsg, user := promptStr,
    maxTokens := 128 }

/-- An Ollama `/api/chat` request body, abstracted to its fields. -/
structure OllamaRequest where
  model : GoStr
  system : GoStr
  user : GoStr
  numPredict : Nat
  stream : Bool
  deriving DecidableEq

/-- The Ollama request body built inside `OllamaProvider.GenerateCommand`
(`ollama.go`). -/
def BuildOllamaRequestBody (model promptStr : GoStr) : OllamaRequest :=
  { model := model, system := assistantSystemMsg, user := promptStr,
    numPredict := 128, stream := false }

/-- The model-resolution pattern every backend's `GenerateCommand` opens
with: `model := o.Model; if opts.Model != "" { model = opts.Model }`. -/
def resolveModel (stored optsModel : GoStr) : GoStr :=
  if optsModel ≠ [] then optsModel else stored

/-- `OpenAIProvider` (`openai.go`): its embedded `BaseHTTPProvider`
fields. -/
structure OpenAIProvider where
  APIKey : GoStr
  Model : GoStr
  deriving DecidableEq

/-- The request body `OpenAIProvider.GenerateCommand` issues: resolve the
model, then `BuildOpenAIStyleRequestBody` (the HTTP POST itself is not
modelled). -/
def OpenAIProvider.requestBody (o : OpenAIProvider) (promptStr : GoStr)
    (opts : ProviderOptions) : ChatRequest :=
  BuildOpenAIStyleRequestBody (resolveModel o.Model opts.Model) promptStr

/-- `OllamaProvider` (`ollama.go`). -/
structure OllamaProvider where
  URL : GoStr
  Model : GoStr
  deriving DecidableEq

/-- The request body `OllamaProvider.GenerateCommand` issues. -/
def OllamaProvider.requestBody (o : OllamaProvider) (promptStr : GoStr)
    (opts : ProviderOptions) : OllamaRequest :=
  BuildOllamaRequestBody (resolveModel o.Model opts.Model) promptStr

/-- The `"openai"` case of `RegisterProvidersFromConfig` (`provider.go`):
an `OpenAIProvider` is registered, with the configured `default_model` as
its stored model, exactly when the configured key is non-empty. -/
def registerOpenAI (pc : ProviderConfig) : Option OpenAIProvider :=
  if pc.Key ≠ [] then some { APIKey := pc.Key, Model := pc.DefaultModel }
  else none

/-- The `"ollama"` case of `RegisterProvidersFromConfig` (`provider.go`):
always registered, with the URL defaulting to `http://localhost:11434`. -/
def registerOllama (pc : ProviderConfig) : OllamaProvider :=
  { URL := if pc.URL = [] then "http://localhost:11434".data else pc.URL,
    Model := pc.DefaultModel }

/-! ## `BuildPrompt` (`internal/prompt/builder.go`) -/

/-- `Context` from `internal/context`: the Go maps `GitInfo` and `Extra`
are modelled as association lists whose list order is the (unspecified) Go
map iteration order; `Extra` values are carried already `%v`-rendered. -/
structure Context where
  WorkingDir : GoStr
  Files : List GoStr
  GitInfo : List (GoStr × GoStr)
  Extra : List (GoStr × GoStr)
  deriving DecidableEq

/-- Go map lookup `v, ok := m[k]` over the association-list model. -/
def mapGet (m : List (GoStr × GoStr)) (k : GoStr) : Option GoStr :=
  (m.find? fun kv => kv.1 == k).map fun kv => kv.2

/-- Decimal rendering of a natural number (`%d`). -/
def natStr (n : Nat) : GoStr := Nat.toDigits 10 n

/-- Go `fmt.Sprintf("%v", xs)` for a string slice: `[a b c]`. -/
def fmtStrSlice (xs : List GoStr) : GoStr :=
  "[".data ++ (xs.intersperse " ".data).flatten ++ "]".data

/-- The fixed instruction block opening every prompt. -/
def promptPreamble : GoStr :=
  ("You are an expert terminal assistant. Given the following project context, generate a smart, concise shell command for the user's request. Do not wrap your command in code blocks, provide it directly.\n\n" ++
   "When running commands such as `ls`, make sure to pick flags to make it user-friendly. Avoid confusing the user with too much information.\n\n" ++
   "If the command is potentially dangerous and destructive, write 'danger: ' before the command.\n\n").data

/-- `BuildPrompt` from `builder.go`: file list (truncated to 20 entries),
git info (or a fixed no-repository sentence), plugin extras in map
iteration order, then the user request. -/
def BuildPrompt (ctx : Context) (userInput : GoStr) : GoStr :=
  let maxFiles := 20
  let fileList :=
    if 0 < ctx.Files.length then
      if maxFiles < ctx.Files.length then
        fmtStrSlice (ctx.Files.take maxFiles) ++ " ... (and ".data ++
          natStr (ctx.Files.length - maxFiles) ++ " more)".data
      else fmtStrSlice ctx.Files
    else "(none)".data
  let gitInfo :=
    (match mapGet ctx.GitInfo "branch".data with
     | some b => if b ≠ [] then "Branch: ".data ++ b ++ "\n".data else []
     | none => []) ++
    (match mapGet ctx.GitInfo "status".data with
     | some st => if st ≠ [] then "Status:\n".data ++ st ++ "\n".data else []
     | none => [])
  let gitInfo := if gitInfo = [] then "No git repository detected.\n".data else gitInfo
  let extras :=
    if 0 < ctx.Extra.length then
      "Additional context:\n".data ++
        (ctx.Extra.map fun kv =>
          "- ".data ++ kv.1 ++ ": ".data ++ kv.2 ++ "\n".data).flatten
    else []
  promptPreamble ++
  "Working Directory: ".data ++ ctx.WorkingDir ++ "\n".data ++
  "Files: ".data ++ fileList ++ "\n".data ++
  "Git Info:\n".data ++ gitInfo ++
  extras ++
  "User Request: ".data ++ userInput ++ "\n".data ++
  "Shell Command:".data

/-! ## The `main` pipeline (generation, danger gating, execution, retry) -/

/-- The literal danger marker `"danger: "`. -/
def dangerPfx : GoStr := "danger: ".data

/-- The CLI flags the pipeline consults. -/
structure Flags where
  dryRun : Bool
  yesSure : Bool
  deriving DecidableEq

/-- How one invocation of `main`'s pipeline terminates. -/
inductive Outcome
  /-- `log.Fatalf("Provider error: ...")`. -/
  | providerFatal
  /-- the first generated command is danger-marked and the bypass flag is
  unset: refusal printed, `os.Exit(1)`. -/
  | refusedDanger
  /-- `log.Fatalf("Failed to get corrected command: ...")`. -/
  | correctedProviderFatal
  /-- `log.Fatalf("LLM did not provide a valid corrected command")`. -/
  | emptyCorrectedFatal
  /-- the corrected command is danger-marked and the bypass flag is unset. -/
  | refusedCorrectedDanger
  /-- `log.Fatalf("Corrected command also failed: ...")`. -/
  | correctedFailedFatal
  /-- `log.Fatalf("Command failed: ...")` (failure with dry-run active). -/
  | firstFailedFatal
  /-- normal return from `main`. -/
  | ok
  deriving DecidableEq

/-- The refusal message for a dangerous first command. -/
def dangerRefusalMsg : GoStr :=
  "This is a dangerous command, use --yes-im-sure to bypass.".data

/-- The refusal message for a dangerous corrected command. -/
def correctedDangerRefusalMsg : GoStr :=
  "The corrected command is dangerous, use --yes-im-sure to bypass.".data

/-- The spelling of the global bypass flag. -/
def bypassFlag : GoStr := "--yes-im-sure".data

/-- The fixed refusal message printed for each refusal outcome (the fatal
outcomes print messages with dynamic content, not modelled). -/
def outcomeMessage : Outcome → Option GoStr
  | .refusedDanger => some dangerRefusalMsg
  | .refusedCorrectedDanger => some correctedDangerRefusalMsg
  | _ => none

/-- The process exit code for each outcome (`os.Exit(1)` for refusals,
`log.Fatalf` for fatal errors, 0 on normal return). -/
def exitCode : Outcome → Nat
  | .ok => 0
  | _ => 1

/-- The correction prompt built after a failed first execution
(`fmt.Sprintf` in `main.go`). -/
def errorPrompt (cmd errMsg stderrS stdoutS userInput : GoStr) : GoStr :=
  "The previous command failed:\nCommand: ".data ++ cmd ++
  "\nError: ".data ++ errMsg ++
  "\nStderr: ".data ++ stderrS ++
  "\nStdout: ".data ++ stdoutS ++
  "\n\nPlease provide a corrected command for the original request: ".data ++
  userInput ++
  "\nReturn ONLY the shell command, nothing else. Do not use markdown code blocks.".data

/-- One `exec.Run` invocation made by the pipeline, with its arguments and
outcome. -/
structure RunCall where
  cmd : GoStr
  requireConfirm : Bool
  out : RunOutcome
  deriving DecidableEq

/-- The observable behaviour of one pipeline invocation: the terminal
outcome, the prompts passed to the provider's `GenerateCommand` in call
order, and the `exec.Run` invocations in order. -/
structure PipelineResult where
  outcome : Outcome
  genPrompts : List GoStr
  runs : List RunCall
  deriving DecidableEq

/-- The retry controller of `main`: build the correction prompt from the
failed attempt, ask the provider once more, sanitize, gate the danger
marker behind the bypass flag, strip the approved marker, and run the
corrected command exactly once — a second failure is fatal. -/
def retryStage (flags : Flags) (userInput promptStr : GoStr)
    (gen : Nat → GoStr → Except GoStr GoStr) (sys : GoStr → CmdResult)
    (resp : Nat → GoStr) (cmd : GoStr) (call1 : RunCall) (r1 : RunOutcome) :
    PipelineResult :=
  let ep := errorPrompt cmd (r1.err.getD []) r1.stderr r1.stdout userInput
  match gen 1 ep with
  | .error _ => ⟨.correctedProviderFatal, [promptStr, ep], [call1]⟩
  | .ok raw2 =>
    let c2 := cleanCommand raw2
    if goTrimSpace c2 = [] then ⟨.emptyCorrectedFatal, [promptStr, ep], [call1]⟩
    else
      let d2 := hasPfx dangerPfx c2
      if d2 && !flags.yesSure then
        ⟨.refusedCorrectedDanger, [promptStr, ep], [call1]⟩
      else
        let c2s := if flags.yesSure && d2 then c2.drop dangerPfx.length else c2
        let rc2 := !flags.yesSure && !d2
        let r2 := (Executor.mk flags.dryRun).Run c2s rc2 (resp 1) sys
        let call2 : RunCall := ⟨c2s, rc2, r2⟩
        if r2.err.isSome then
          ⟨.correctedFailedFatal, [promptStr, ep], [call1, call2]⟩
        else ⟨.ok, [promptStr, ep], [call1, call2]⟩

/-- The execution stage of `main` after the danger gate: strip the approved
marker, compute the confirmation requirement (`!yesSure && !isDanger`), run
once, and on a non-dry-run failure enter the retry stage. -/
def execStage (flags : Flags) (userInput promptStr : GoStr)
    (gen : Nat → GoStr → Except GoStr GoStr) (sys : GoStr → CmdResult)
    (resp : Nat → GoStr) (cmd0 : GoStr) (isDanger : Bool) : PipelineResult :=
  let cmd := if flags.yesSure && isDanger then cmd0.drop dangerPfx.length else cmd0
  let requireConfirm := !flags.yesSure && !isDanger
  let r1 := (Executor.mk flags.dryRun).Run cmd requireConfirm (resp 0) sys
  let call1 : RunCall := ⟨cmd, requireConfirm, r1⟩
  if r1.err.isSome && !flags.dryRun then
    retryStage flags userInput promptStr gen sys resp cmd call1 r1
  else if r1.err.isSome then ⟨.firstFailedFatal, [promptStr], [call1]⟩
  else ⟨.ok, [promptStr], [call1]⟩

/-- The command-generation-and-execution pipeline of `main` (the variant
with retry): generate, sanitize, gate danger-marked commands behind the
bypass flag, then `execStage`/`retryStage`.  The provider is modelled as a
function of the call index and prompt; the shell as `sys`; the interactive
confirmation responses as `resp`. -/
def mainPipeline (flags : Flags) (userInput promptStr : GoStr)
    (gen : Nat → GoStr → Except GoStr GoStr) (sys : GoStr → CmdResult)
    (resp : Nat → GoStr) : PipelineResult :=
  match gen 0 promptStr with
  | .error _ => ⟨.providerFatal, [promptStr], []⟩
  | .ok raw =>
    let cmd := cleanCommand raw
    let isDanger := hasPfx dangerPfx cmd
    if isDanger && !flags.yesSure then
      ⟨.refusedDanger, [promptStr], []⟩
    else execStage flags userInput promptStr gen sys resp cmd isDanger

/-! ## Lemmas about the string primitives -/

theorem dropWhile_head_not {α : Type} {p : α → Bool} :
    ∀ (l : List α) (a : α), (l.dropWhile p).head? = some a → p a = false := by
  intro l
  induction l with
  | nil => intro a h; simp [List.dropWhile] at h
  | cons c t ih =>
    intro a h
    rw [List.dropWhile_cons] at h
    by_cases hc : p c
    · rw [if_pos hc] at h
      exact ih a h
    · rw [if_neg hc] at h
      simp only [List.head?_cons, Option.some.injEq] at h
      subst h
      exact Bool.not_eq_true _ ▸ (by simpa using hc)

theorem rdropWhile_getLast_not {α : Type} {p : α → Bool} (l : List α) (a : α)
    (h : (l.rdropWhile p).getLast? = some a) : p a = false := by
  rw [List.rdropWhile, List.getLast?_reverse] at h
  exact dropWhile_head_not _ a h

theorem dropWhile_eq_self_of_head {α : Type} {p : α → Bool} {l : List α}
    (h : ∀ a, l.head? = some a → p a = false) : l.dropWhile p = l := by
  cases l with
  | nil => rfl
  | cons c t =>
    have hc := h c rfl
    rw [List.dropWhile_cons, if_neg (by simp [hc])]

theorem rdropWhile_eq_self_of_getLast {α : Type} {p : α → Bool} {l : List α}
    (h : ∀ a, l.getLast? = some a → p a = false) : l.rdropWhile p = l := by
  rcases eq_or_ne l [] with rfl | hne
  · simp
  · rw [List.rdropWhile_eq_self_iff]
    intro hl
    have := h (l.getLast hl) (List.getLast?_eq_getLast_of_ne_nil hl)
    simp [this]

theorem head?_of_listPfx {α : Type} {l₁ l₂ : List α} (h : l₁ <+: l₂)
    (hne : l₁ ≠ []) : l₂.head? = l₁.head? := by
  obtain ⟨r, rfl⟩ := h
  cases l₁ with
  | nil => exact absurd rfl hne
  | cons a t => rfl

theorem goTrimSpace_head_not {s : GoStr} {a : Char}
    (h : (goTrimSpace s).head? = some a) : goIsSpace a = false := by
  have hne : goTrimSpace s ≠ [] := by
    intro h0; rw [h0] at h; exact Option.noConfusion h
  have hpre := List.rdropWhile_prefix goIsSpace (s.dropWhile goIsSpace)
  have hx : (s.dropWhile goIsSpace).head? = some a := by
    rw [head?_of_listPfx hpre hne]; exact h
  exact dropWhile_head_not _ a hx

theorem goTrimSpace_getLast_not {s : GoStr} {a : Char}
    (h : (goTrimSpace s).getLast? = some a) : goIsSpace a = false :=
  rdropWhile_getLast_not _ a h

theorem goTrimSpace_eq_self {s : GoStr}
    (h1 : ∀ a, s.head? = some a → goIsSpace a = false)
    (h2 : ∀ a, s.getLast? = some a → goIsSpace a = false) :
    goTrimSpace s = s := by
  unfold goTrimSpace
  rw [dropWhile_eq_self_of_head h1, rdropWhile_eq_self_of_getLast h2]

theorem goTrimSpace_idem (s : GoStr) :
    goTrimSpace (goTrimSpace s) = goTrimSpace s :=
  goTrimSpace_eq_self (fun _ h => goTrimSpace_head_not h)
    (fun _ h => goTrimSpace_getLast_not h)

theorem goTrimSpace_subset (s : GoStr) : goTrimSpace s ⊆ s := by
  intro a ha
  have h1 : a ∈ s.dropWhile goIsSpace :=
    ( List.rdropWhile_prefix goIsSpace (s.dropWhile goIsSpace)).subset ha
  exact (List.dropWhile_sublist goIsSpace).subset h1

theorem splitNl_ne_nil (s : GoStr) : splitNl s ≠ [] := by
  cases s with
  | nil => simp [splitNl]
  | cons c cs =>
    simp only [splitNl]
    split
    · simp
    · split <;> simp

theorem mem_splitNl_not_newline {s l : GoStr} (h : l ∈ splitNl s) :
    '\n' ∉ l := by
  induction s generalizing l with
  | nil =>
    simp [splitNl] at h
    subst h; simp
  | cons c cs ih =>
    simp only [splitNl] at h
    by_cases hc : c = '\n'
    · rw [if_pos hc] at h
      rcases List.mem_cons.1 h with h1 | h2
      · subst h1; simp
      · exact ih h2
    · rw [if_neg hc] at h
      obtain ⟨l0, ls, hr⟩ : ∃ l0 ls, splitNl cs = l0 :: ls := by
        cases h' : splitNl cs with
        | nil => exact absurd h' (splitNl_ne_nil cs)
        | cons a b => exact ⟨a, b, rfl⟩
      rw [hr] at h
      rcases List.mem_cons.1 h with h1 | h2
      · subst h1
        intro hm
        rcases List.mem_cons.1 hm with h' | h'
        · exact hc h'.symm
        · exact ih (hr ▸ List.mem_cons_self l0 ls) h'
      · exact ih (hr ▸ List.mem_cons_of_mem l0 h2)

theorem splitNl_eq_singleton {s : GoStr} (h : '\n' ∉ s) : splitNl s = [s] := by
  induction s with
  | nil => rfl
  | cons c cs ih =>
    have hc : ¬(c = '\n') := fun e => h (e ▸ List.mem_cons_self c cs)
    have hcs : '\n' ∉ cs := fun m => h (List.mem_cons_of_mem c m)
    simp only [splitNl, if_neg hc, ih hcs]

/-! ## Lemmas about the sanitizer -/

theorem firstCmdLine_some {ls : List GoStr} {t : GoStr}
    (h : firstCmdLine ls = some t) :
    goTrimSpace t = t ∧ t ≠ [] ∧ hasPfx ['#'] t = false ∧
      ∃ l ∈ ls, t = goTrimSpace l := by
  induction ls with
  | nil => simp [firstCmdLine] at h
  | cons l ls ih =>
    simp only [firstCmdLine] at h
    by_cases hcond : goTrimSpace l ≠ [] ∧ hasPfx ['#'] (goTrimSpace l) = false
    · rw [if_pos hcond] at h
      obtain rfl : goTrimSpace l = t := by injection h
      exact ⟨goTrimSpace_idem l, hcond.1, hcond.2, l,
        List.mem_cons_self l ls, rfl⟩
    · rw [if_neg hcond] at h
      obtain ⟨h1, h2, h3, l', hl', ht⟩ := ih h
      exact ⟨h1, h2, h3, l', List.mem_cons_of_mem _ hl', ht⟩

theorem firstCmdLine_splitNl_no_newline {c t : GoStr}
    (h : firstCmdLine (splitNl c) = some t) : '\n' ∉ t := by
  obtain ⟨_, _, _, l, hl, rfl⟩ := firstCmdLine_some h
  intro hm
  exact mem_splitNl_not_newline hl (goTrimSpace_subset l hm)

theorem firstCmdLine_singleton {t : GoStr} (h1 : goTrimSpace t = t)
    (h2 : t ≠ []) (h3 : hasPfx ['#'] t = false) :
    firstCmdLine [t] = some t := by
  simp only [firstCmdLine, h1]
  rw [if_pos ⟨h2, h3⟩]

theorem hasPfx_false_of_head {a : Char} {ps s : GoStr}
    (h : s.head? ≠ some a) : hasPfx (a :: ps) s = false := by
  cases s with
  | nil => rfl
  | cons c cs =>
    have hac : ¬(a = c) := fun e => h (by rw [e]; rfl)
    simp [hasPfx, hac]

theorem cleanCommand_eq_of_nil {s : GoStr} (h : goTrimSpace s = []) :
    cleanCommand s = [] := by
  unfold cleanCommand
  rw [if_pos h, h]

theorem cleanCommand_eq_of_ne {s : GoStr} (h : goTrimSpace s ≠ []) :
    cleanCommand s =
      (match firstCmdLine (splitNl (stripWrap (goTrimSpace s))) with
       | some line => line
       | none => stripWrap (goTrimSpace s)) := by
  unfold cleanCommand
  rw [if_neg h]

theorem stripWrap_trimmed (c : GoStr) :
    goTrimSpace (stripWrap c) = stripWrap c := by
  unfold stripWrap
  exact goTrimSpace_idem _

theorem cleanCommand_trimmed (s : GoStr) :
    goTrimSpace (cleanCommand s) = cleanCommand s := by
  rcases eq_or_ne (goTrimSpace s) [] with h | h
  · rw [cleanCommand_eq_of_nil h]; rfl
  · rw [cleanCommand_eq_of_ne h]
    cases hfc : firstCmdLine (splitNl (stripWrap (goTrimSpace s))) with
    | some t => exact (firstCmdLine_some hfc).1
    | none => exact stripWrap_trimmed _

/-- The shape of every sanitizer output: it is empty, or it is the
newline-free first non-empty non-comment line of the fence- and
backtick-stripped response, or — when every line of the stripped response
is blank or a comment — the stripped response itself. -/
theorem cleanCommand_cases (s : GoStr) :
    cleanCommand s = [] ∨
    (firstCmdLine (splitNl (stripWrap (goTrimSpace s))) = some (cleanCommand s) ∧
      cleanCommand s ≠ [] ∧ '\n' ∉ cleanCommand s) ∨
    (firstCmdLine (splitNl (stripWrap (goTrimSpace s))) = none ∧
      cleanCommand s = stripWrap (goTrimSpace s)) := by
  rcases eq_or_ne (goTrimSpace s) [] with h | h
  · exact Or.inl (cleanCommand_eq_of_nil h)
  · rw [cleanCommand_eq_of_ne h]
    cases hfc : firstCmdLine (splitNl (stripWrap (goTrimSpace s))) with
    | some t =>
      exact Or.inr (Or.inl ⟨rfl, (firstCmdLine_some hfc).2.1,
        firstCmdLine_splitNl_no_newline hfc⟩)
    | none => exact Or.inr (Or.inr ⟨rfl, rfl⟩)

theorem stripFences_eq_self {c : GoStr} (h : c.head? ≠ some '`') :
    stripFences c = c := by
  have hf : hasPfx fence c = false := by
    have he : fence = '`' :: ('`' :: '`' :: []) := rfl
    rw [he]
    exact hasPfx_false_of_head h
  unfold stripFences
  rw [hf]
  simp

theorem goTrim_bq_eq_self {c : GoStr} (hh : c.head? ≠ some '`')
    (hl : c.getLast? ≠ some '`') : goTrim backquoteCut c = c := by
  have h1 : c.dropWhile backquoteCut.contains = c := by
    apply dropWhile_eq_self_of_head
    intro a ha
    have hne : ¬(a = '`') := fun e => hh (e ▸ ha)
    simp [backquoteCut, List.contains, hne]
  have h2 : c.rdropWhile backquoteCut.contains = c := by
    apply rdropWhile_eq_self_of_getLast
    intro a ha
    have hne : ¬(a = '`') := fun e => hl (e ▸ ha)
    simp [backquoteCut, List.contains, hne]
  unfold goTrim
  rw [h1, h2]

/-! ## Claims about the response sanitizer (C4, C5) -/

/-- **C4, counterexample.**  The input `"#a\n#b"` (every line a comment)
is returned whole by the sanitizer: the output is non-empty and still
contains a newline, so the output is not always empty-or-a-single-line. -/
theorem cleanCommand_newline_cex :
    cleanCommand "#a\n#b".data ≠ [] ∧ '\n' ∈ cleanCommand "#a\n#b".data := by
  decide

/-- **C4 (amended).**  For every input `s`, the sanitizer output is either
empty, or the first line of the fence- and backtick-stripped input whose
trimmed form is non-empty and does not start with `#` (and then it contains
no newline), or — when no such line exists — the whole fence- and
backtick-stripped trimmed input, which may span several lines. -/
theorem cleanCommand_output_shape (s : GoStr) :
    cleanCommand s = [] ∨
    (firstCmdLine (splitNl (stripWrap (goTrimSpace s))) = some (cleanCommand s) ∧
      cleanCommand s ≠ [] ∧ '\n' ∉ cleanCommand s) ∨
    (firstCmdLine (splitNl (stripWrap (goTrimSpace s))) = none ∧
      cleanCommand s = stripWrap (goTrimSpace s)) :=
  cleanCommand_cases s

/-- **C5, counterexample.**  Sanitization is not idempotent: on
`"#\n`ls`"` the first pass returns `` "`ls" `` (the trailing backtick of
the whole string is trimmed, then the first non-comment line is taken),
and a second pass strips the now-leading backtick, yielding `"ls"`. -/
theorem cleanCommand_not_idem_cex :
    cleanCommand (cleanCommand "#\n`ls`".data) ≠ cleanCommand "#\n`ls`".data := by
  decide

/-- **C5 (amended).**  The sanitizer is idempotent on every input whose
sanitized output neither starts nor ends with a backtick (re-sanitizing
only differs when the output carries an edge backtick, which the second
pass trims). -/
theorem cleanCommand_idem_no_edge_backtick (s : GoStr)
    (hh : (cleanCommand s).head? ≠ some '`')
    (hl : (cleanCommand s).getLast? ≠ some '`') :
    cleanCommand (cleanCommand s) = cleanCommand s := by
  rcases eq_or_ne (cleanCommand s) [] with h0 | hne
  · rw [h0]; decide
  · have htrim : goTrimSpace (cleanCommand s) = cleanCommand s :=
      cleanCommand_trimmed s
    have hsf : stripFences (cleanCommand s) = cleanCommand s :=
      stripFences_eq_self hh
    have hbq : goTrim backquoteCut (cleanCommand s) = cleanCommand s :=
      goTrim_bq_eq_self hh hl
    have hsw : stripWrap (cleanCommand s) = cleanCommand s := by
      unfold stripWrap
      rw [hsf, hbq, htrim]
    have hne' : goTrimSpace (cleanCommand s) ≠ [] := by
      rw [htrim]; exact hne
    rw [cleanCommand_eq_of_ne hne', htrim, hsw]
    rcases cleanCommand_cases s with h | ⟨hfc, hne2, hnl⟩ | ⟨hfc, heq⟩
    · exact absurd h hne
    · have h3 : hasPfx ['#'] (cleanCommand s) = false :=
        (firstCmdLine_some hfc).2.2.1
      rw [splitNl_eq_singleton hnl, firstCmdLine_singleton htrim hne2 h3]
    · rw [heq, hfc]

/-- **C5, witness.**  A concrete instance of the amended idempotence
theorem at `"ls -la"`. -/
theorem cleanCommand_idem_no_edge_backtick_witness :
    cleanCommand (cleanCommand "ls -la".data) = cleanCommand "ls -la".data :=
  cleanCommand_idem_no_edge_backtick ("ls -la".data) (by decide) (by decide)

/-! ## Claims about the executor (C6, C7) -/

/-- **C6.**  With `DryRun` set, `Run` prints the command and the dry-run
notice, asks no confirmation, spawns no subprocess, and reports success
with empty captured output — for every command, confirmation requirement,
interactive response and shell behaviour. -/
theorem dryRun_no_action (cmd : GoStr) (requireConfirm : Bool)
    (resp : GoStr) (sys : GoStr → CmdResult) :
    Executor.Run ⟨true⟩ cmd requireConfirm resp sys =
      { prompted := false, spawned := false, stdout := [], stderr := [],
        err := none, printed := [runningMsg cmd, dryRunMsg] } :=
  rfl

/-- **C7.**  With confirmation required (and dry-run off), an explicit
negative response — leading `n`/`N` — makes `Run` return with no subprocess
spawned, empty output and no error; any other response (blank included)
proceeds to spawn the command. -/
theorem confirm_negative_aborts (cmd resp : GoStr) (sys : GoStr → CmdResult) :
    (isNegative resp = true →
      Executor.Run ⟨false⟩ cmd true resp sys =
        { prompted := true, spawned := false, stdout := [], stderr := [],
          err := none,
          printed := [runningMsg cmd, confirmMsg, abortedMsg] }) ∧
    (isNegative resp = false →
      (Executor.Run ⟨false⟩ cmd true resp sys).spawned = true) := by
  constructor
  · intro h
    unfold Executor.Run
    simp [h]
  · intro h
    unfold Executor.Run
    simp [h]

/-- **C7, witness.**  The negative response `"n"` aborts; the blank
response proceeds to spawn. -/
theorem confirm_negative_aborts_witness :
    (Executor.Run ⟨false⟩ "ls".data true "n".data (fun _ => ⟨[], [], none⟩) =
      { prompted := true, spawned := false, stdout := [], stderr := [],
        err := none,
        printed := [runningMsg "ls".data, confirmMsg, abortedMsg] }) ∧
    (Executor.Run ⟨false⟩ "ls".data true [] (fun _ => ⟨[], [], none⟩)).spawned = true :=
  ⟨(confirm_negative_aborts "ls".data "n".data _).1 (by decide),
   (confirm_negative_aborts "ls".data [] _).2 (by decide)⟩

/-! ## Claims about model resolution (C8) -/

/-- **C8, counterexample.**  With an empty CLI override and an empty
configured `default_model`, the OpenAI backend still issues its request —
with an empty model field: there is no backend-hardcoded fallback model. -/
theorem empty_model_request_cex :
    (OpenAIProvider.requestBody ⟨"sk-test".data, []⟩ "p".data
      ⟨[], "openai".data⟩).model = [] :=
  rfl

/-- **C8 (amended).**  Model resolution is two-tier: the request issued by
a backend registered from the configuration carries the explicit per-call
override when non-empty, and otherwise the configured `default_model` —
with no third, backend-hardcoded tier (both empty yields an empty model in
the request). -/
theorem model_resolution_two_tier (pc : ProviderConfig) (o : OpenAIProvider)
    (hreg : registerOpenAI pc = some o) (optsModel p provName : GoStr) :
    ((o.requestBody p ⟨optsModel, provName⟩).model =
      if optsModel ≠ [] then optsModel else pc.DefaultModel) ∧
    (((registerOllama pc).requestBody p ⟨optsModel, provName⟩).model =
      if optsModel ≠ [] then optsModel else pc.DefaultModel) := by
  have ho : o.Model = pc.DefaultModel := by
    unfold registerOpenAI at hreg
    by_cases h : pc.Key ≠ []
    · rw [if_pos h] at hreg
      injection hreg with h'
      rw [← h']
    · rw [if_neg h] at hreg
      exact absurd hreg (by simp)
  constructor
  · show resolveModel o.Model optsModel = _
    unfold resolveModel
    rw [ho]
  · rfl

/-- **C8, witness.**  The two-tier resolution at a concrete registered
configuration (`default_model` `"gpt-4o"`, override `"o3"`). -/
theorem model_resolution_two_tier_witness :
    ((OpenAIProvider.requestBody ⟨"k".data, "gpt-4o".data⟩ "p".data
        ⟨"o3".data, "openai".data⟩).model =
      if "o3".data ≠ ([] : GoStr) then "o3".data else "gpt-4o".data) ∧
    (((registerOllama ⟨"k".data, "gpt-4o".data, []⟩).requestBody "p".data
        ⟨"o3".data, "openai".data⟩).model =
      if "o3".data ≠ ([] : GoStr) then "o3".data else "gpt-4o".data) :=
  model_resolution_two_tier ⟨"k".data, "gpt-4o".data, []⟩
    ⟨"k".data, "gpt-4o".data⟩ (by decide) "o3".data "p".data "openai".data

/-! ## Claims about the prompt builder (C9) -/

set_option maxRecDepth 8192 in
/-- **C9, counterexample.**  Two enumeration orders of the same two-entry
extras map — the same Go map value, witnessed by the permutation — yield
different prompt strings, so the prompt is not a function of the map value
alone. -/
theorem buildPrompt_order_cex :
    (([("a".data, "1".data), ("b".data, "2".data)] :
        List (GoStr × GoStr)).Perm
      [("b".data, "2".data), ("a".data, "1".data)]) ∧
    BuildPrompt ⟨"/w".data, [], [],
        [("a".data, "1".data), ("b".data, "2".data)]⟩ "u".data ≠
      BuildPrompt ⟨"/w".data, [], [],
        [("b".data, "2".data), ("a".data, "1".data)]⟩ "u".data := by
  constructor
  · decide
  · decide

/-- **C9 (amended).**  `BuildPrompt` is a pure function of the context with
a fixed enumeration order of the extras map; in particular, when the extras
map has at most one entry, the prompt does not depend on the enumeration
order at all. -/
theorem buildPrompt_det_small_extras (ctx : Context)
    (ex2 : List (GoStr × GoStr)) (hperm : ctx.Extra.Perm ex2)
    (hlen : ctx.Extra.length ≤ 1) (u : GoStr) :
    BuildPrompt ctx u =
      BuildPrompt ⟨ctx.WorkingDir, ctx.Files, ctx.GitInfo, ex2⟩ u := by
  have hx : ctx.Extra = ex2 := by
    cases hc : ctx.Extra with
    | nil =>
      rw [hc] at hperm
      exact (List.Perm.eq_nil hperm.symm).symm
    | cons kv rest =>
      rw [hc] at hperm hlen
      have hr : rest = [] := by
        cases rest with
        | nil => rfl
        | cons _ _ => simp at hlen
      subst hr
      exact List.Perm.eq_singleton hperm.symm |>.symm
  obtain ⟨wd, fs, gi, ex⟩ := ctx
  dsimp only at hx ⊢
  rw [hx]

/-- **C9, witness.**  The amended determinism theorem at a one-entry extras
map. -/
theorem buildPrompt_det_small_extras_witness :
    BuildPrompt ⟨"/w".data, [], [], [("a".data, "1".data)]⟩ "u".data =
      BuildPrompt ⟨"/w".data, [], [], [("a".data, "1".data)]⟩ "u".data :=
  buildPrompt_det_small_extras
    ⟨"/w".data, [], [], [("a".data, "1".data)]⟩
    [("a".data, "1".data)] (by decide) (by decide) "u".data

/-! ## Lemmas about the pipeline -/

theorem run_prompted (cmd r : GoStr) (sys : GoStr → CmdResult) :
    (Executor.Run ⟨false⟩ cmd true r sys).prompted = true := by
  unfold Executor.Run
  by_cases h : isNegative r = true <;> simp [h]

theorem retryStage_outcome_ne_refusedDanger (flags : Flags)
    (ui p cmd : GoStr) (gen : Nat → GoStr → Except GoStr GoStr)
    (sys : GoStr → CmdResult) (resp : Nat → GoStr) (call1 : RunCall)
    (r1 : RunOutcome) :
    (retryStage flags ui p gen sys resp cmd call1 r1).outcome ≠
      Outcome.refusedDanger := by
  simp only [retryStage]
  repeat' split
  all_goals simp

theorem execStage_outcome_ne_refusedDanger (flags : Flags)
    (ui p cmd0 : GoStr) (gen : Nat → GoStr → Except GoStr GoStr)
    (sys : GoStr → CmdResult) (resp : Nat → GoStr) (isDanger : Bool) :
    (execStage flags ui p gen sys resp cmd0 isDanger).outcome ≠
      Outcome.refusedDanger := by
  simp only [execStage]
  repeat' split
  all_goals first
    | apply retryStage_outcome_ne_refusedDanger
    | simp

theorem run_spawn_of_nonneg (cmd : GoStr) (rc : Bool) (resp : GoStr)
    (sys : GoStr → CmdResult) (hneg : isNegative resp = false) :
    Executor.Run ⟨false⟩ cmd rc resp sys =
      { prompted := rc, spawned := true, stdout := (sys cmd).stdout,
        stderr := (sys cmd).stderr, err := (sys cmd).err,
        printed :=
          if rc then [runningMsg cmd, confirmMsg] else [runningMsg cmd] } := by
  unfold Executor.Run
  simp [hneg]

theorem retryStage_all_confirmed (ui p cmd : GoStr)
    (gen : Nat → GoStr → Except GoStr GoStr) (sys : GoStr → CmdResult)
    (resp : Nat → GoStr) (call1 : RunCall) (r1 : RunOutcome)
    (hcall1 : (call1.requireConfirm &&
      (!call1.out.spawned || call1.out.prompted)) = true) :
    ((retryStage ⟨false, false⟩ ui p gen sys resp cmd call1 r1).runs.all
      fun rc => rc.requireConfirm && (!rc.out.spawned || rc.out.prompted)) = true := by
  simp only [retryStage]
  repeat' split
  all_goals simp_all [run_prompted]

theorem execStage_all_confirmed (ui p cmd0 : GoStr)
    (gen : Nat → GoStr → Except GoStr GoStr) (sys : GoStr → CmdResult)
    (resp : Nat → GoStr) :
    ((execStage ⟨false, false⟩ ui p gen sys resp cmd0 false).runs.all
      fun rc => rc.requireConfirm && (!rc.out.spawned || rc.out.prompted)) = true := by
  simp only [execStage]
  repeat' split
  all_goals first
    | (apply retryStage_all_confirmed; simp [run_prompted])
    | simp [run_prompted]

/-! ## Claims about the pipeline (C1, C2, C3, C10) -/

/-- **C1, counterexample.**  `"rm -rf /tmp/x"` matches the keyword scanner
(`IsDangerousCommand` returns `true`) and carries no `danger: ` marker, yet
with the bypass flag unset the pipeline does not gate it behind the flag:
it goes to normal confirmation and is executed. -/
theorem keyword_not_gated_cex :
    IsDangerousCommand "rm -rf /tmp/x".data = true ∧
    (mainPipeline ⟨false, false⟩ "u".data "p".data
        (fun _ _ => Except.ok "rm -rf /tmp/x".data)
        (fun _ => ⟨[], [], none⟩) (fun _ => [])).outcome = Outcome.ok ∧
    ((mainPipeline ⟨false, false⟩ "u".data "p".data
        (fun _ _ => Except.ok "rm -rf /tmp/x".data)
        (fun _ => ⟨[], [], none⟩) (fun _ => [])).runs.map
          fun rc => rc.out.spawned) = [true] := by
  decide

/-- **C1 (amended).**  The pipeline classifies the generated command as
dangerous — gating it behind the bypass flag — exactly when the sanitized
command begins with the literal `danger: ` marker; the keyword scanner
`IsDangerousCommand` is not consulted by this pipeline. -/
theorem pipeline_danger_iff_marker (flags : Flags) (ui p raw : GoStr)
    (gen : Nat → GoStr → Except GoStr GoStr) (sys : GoStr → CmdResult)
    (resp : Nat → GoStr) (h0 : gen 0 p = Except.ok raw) :
    ((mainPipeline flags ui p gen sys resp).outcome = Outcome.refusedDanger ↔
      (hasPfx dangerPfx (cleanCommand raw) = true ∧ flags.yesSure = false)) := by
  unfold mainPipeline
  rw [h0]
  dsimp only
  by_cases hcond : (hasPfx dangerPfx (cleanCommand raw) && !flags.yesSure) = true
  · rw [if_pos hcond]
    simp only [Bool.and_eq_true, Bool.not_eq_true'] at hcond
    simp [hcond.1, hcond.2]
  · rw [if_neg hcond]
    constructor
    · intro hout
      exact absurd hout (execStage_outcome_ne_refusedDanger flags ui p
        (cleanCommand raw) gen sys resp (hasPfx dangerPfx (cleanCommand raw)))
    · rintro ⟨h1, h2⟩
      exact absurd (by rw [h1, h2]; rfl) hcond

/-- **C1, witness.**  The amended classification at the marked command
`"danger: ls"`. -/
theorem pipeline_danger_iff_marker_witness :
    ((mainPipeline ⟨false, false⟩ "u".data "p".data
        (fun _ _ => Except.ok "danger: ls".data)
        (fun _ => ⟨[], [], none⟩) (fun _ => [])).outcome =
          Outcome.refusedDanger ↔
      (hasPfx dangerPfx (cleanCommand "danger: ls".data) = true ∧
        (⟨false, false⟩ : Flags).yesSure = false)) :=
  pipeline_danger_iff_marker ⟨false, false⟩ "u".data "p".data
    "danger: ls".data (fun _ _ => Except.ok "danger: ls".data)
    (fun _ => ⟨[], [], none⟩) (fun _ => []) rfl

/-- **C2.**  A danger-marked sanitized command with the bypass flag unset
makes the pipeline refuse immediately: the refusal message (which names the
bypass flag) is printed, the exit code is 1, no `exec.Run` call happens (so
no subprocess and no confirmation prompt), and the provider is never asked
again. -/
theorem danger_without_bypass_refusal (flags : Flags) (ui p raw : GoStr)
    (gen : Nat → GoStr → Except GoStr GoStr) (sys : GoStr → CmdResult)
    (resp : Nat → GoStr) (h0 : gen 0 p = Except.ok raw)
    (hdng : hasPfx dangerPfx (cleanCommand raw) = true)
    (hb : flags.yesSure = false) :
    mainPipeline flags ui p gen sys resp =
      ⟨Outcome.refusedDanger, [p], []⟩ ∧
    exitCode (mainPipeline flags ui p gen sys resp).outcome = 1 ∧
    outcomeMessage (mainPipeline flags ui p gen sys resp).outcome =
      some dangerRefusalMsg ∧
    containsSub bypassFlag dangerRefusalMsg = true := by
  have hpipe : mainPipeline flags ui p gen sys resp =
      ⟨Outcome.refusedDanger, [p], []⟩ := by
    unfold mainPipeline
    rw [h0]
    dsimp only
    rw [if_pos (by rw [hdng, hb]; rfl)]
  exact ⟨hpipe, by rw [hpipe]; rfl, by rw [hpipe]; rfl, by decide⟩

/-- **C2, witness.**  The end-to-end refusal scenario: the provider returns
`"danger: rm -rf /tmp/x"` and the bypass flag is unset. -/
theorem danger_without_bypass_refusal_witness :
    mainPipeline ⟨false, false⟩ "u".data "p".data
        (fun _ _ => Except.ok "danger: rm -rf /tmp/x".data)
        (fun _ => ⟨[], [], none⟩) (fun _ => []) =
      ⟨Outcome.refusedDanger, ["p".data], []⟩ ∧
    exitCode (mainPipeline ⟨false, false⟩ "u".data "p".data
        (fun _ _ => Except.ok "danger: rm -rf /tmp/x".data)
        (fun _ => ⟨[], [], none⟩) (fun _ => [])).outcome = 1 ∧
    outcomeMessage (mainPipeline ⟨false, false⟩ "u".data "p".data
        (fun _ _ => Except.ok "danger: rm -rf /tmp/x".data)
        (fun _ => ⟨[], [], none⟩) (fun _ => [])).outcome =
      some dangerRefusalMsg ∧
    containsSub bypassFlag dangerRefusalMsg = true :=
  danger_without_bypass_refusal ⟨false, false⟩ "u".data "p".data
    "danger: rm -rf /tmp/x".data
    (fun _ _ => Except.ok "danger: rm -rf /tmp/x".data)
    (fun _ => ⟨[], [], none⟩) (fun _ => []) rfl (by decide) rfl

/-- **C3.**  With dry-run off, an always-failing executor, a first command
that carries no danger marker and confirmations that proceed: the provider
is asked exactly twice (the second time with the correction prompt built
from the failed attempt), both commands are executed exactly once each, and
the pipeline ends fatally (exit 1) after the second failure — no third
generation or execution attempt. -/
theorem retry_fires_exactly_once (flags : Flags) (ui p raw raw2 : GoStr)
    (gen : Nat → GoStr → Except GoStr GoStr) (sys : GoStr → CmdResult)
    (resp : Nat → GoStr)
    (hdry : flags.dryRun = false)
    (hfail : ∀ c, ((sys c).err).isSome = true)
    (h0 : gen 0 p = Except.ok raw)
    (h1 : ∀ q, gen 1 q = Except.ok raw2)
    (hnd1 : hasPfx dangerPfx (cleanCommand raw) = false)
    (hc0 : isNegative (resp 0) = false)
    (hne2 : goTrimSpace (cleanCommand raw2) ≠ [])
    (hnd2 : hasPfx dangerPfx (cleanCommand raw2) = false)
    (hc1 : isNegative (resp 1) = false) :
    (mainPipeline flags ui p gen sys resp).outcome =
      Outcome.correctedFailedFatal ∧
    exitCode (mainPipeline flags ui p gen sys resp).outcome = 1 ∧
    (mainPipeline flags ui p gen sys resp).genPrompts =
      [p, errorPrompt (cleanCommand raw)
        (((sys (cleanCommand raw)).err).getD [])
        ((sys (cleanCommand raw)).stderr)
        ((sys (cleanCommand raw)).stdout) ui] ∧
    ((mainPipeline flags ui p gen sys resp).runs.map fun rc => rc.cmd) =
      [cleanCommand raw, cleanCommand raw2] ∧
    ((mainPipeline flags ui p gen sys resp).runs.map
      fun rc => rc.out.spawned) = [true, true] := by
  obtain ⟨fd, fy⟩ := flags
  dsimp only at hdry
  subst hdry
  simp [mainPipeline, h0, execStage, retryStage, Executor.Run, exitCode,
    hnd1, hnd2, hc0, hc1, hfail, h1, hne2]

/-- **C3, witness.**  The retry scenario at a concrete always-failing
executor: `"ls"`, then the corrected `"ls -la"`, both failing. -/
theorem retry_fires_exactly_once_witness :
    (mainPipeline ⟨false, false⟩ "u".data "p".data
        (fun n _ => if n = 0 then Except.ok "ls".data
          else Except.ok "ls -la".data)
        (fun _ => ⟨[], "boom".data, some "exit status 1".data⟩)
        (fun _ => [])).outcome = Outcome.correctedFailedFatal ∧
    exitCode (mainPipeline ⟨false, false⟩ "u".data "p".data
        (fun n _ => if n = 0 then Except.ok "ls".data
          else Except.ok "ls -la".data)
        (fun _ => ⟨[], "boom".data, some "exit status 1".data⟩)
        (fun _ => [])).outcome = 1 ∧
    (mainPipeline ⟨false, false⟩ "u".data "p".data
        (fun n _ => if n = 0 then Except.ok "ls".data
          else Except.ok "ls -la".data)
        (fun _ => ⟨[], "boom".data, some "exit status 1".data⟩)
        (fun _ => [])).genPrompts =
      ["p".data, errorPrompt "ls".data "exit status 1".data "boom".data
        [] "u".data] ∧
    ((mainPipeline ⟨false, false⟩ "u".data "p".data
        (fun n _ => if n = 0 then Except.ok "ls".data
          else Except.ok "ls -la".data)
        (fun _ => ⟨[], "boom".data, some "exit status 1".data⟩)
        (fun _ => [])).runs.map fun rc => rc.cmd) =
      ["ls".data, "ls -la".data] ∧
    ((mainPipeline ⟨false, false⟩ "u".data "p".data
        (fun n _ => if n = 0 then Except.ok "ls".data
          else Except.ok "ls -la".data)
        (fun _ => ⟨[], "boom".data, some "exit status 1".data⟩)
        (fun _ => [])).runs.map fun rc => rc.out.spawned) = [true, true] := by
  exact retry_fires_exactly_once ⟨false, false⟩ "u".data "p".data
    "ls".data "ls -la".data
    (fun n _ => if n = 0 then Except.ok "ls".data
      else Except.ok "ls -la".data)
    (fun _ => ⟨[], "boom".data, some "exit status 1".data⟩)
    (fun _ => []) rfl (fun _ => rfl) rfl (fun _ => rfl) (by decide) rfl
    (by decide) (by decide) rfl

/-- **C10.**  With the bypass flag unset and dry-run off, every `exec.Run`
invocation the pipeline makes has `requireConfirm = true`, and whenever it
spawns a subprocess the interactive confirmation question was asked first:
no generated command is executed without confirmation, bypass, or
dry-run. -/
theorem confirmation_gate (flags : Flags) (ui p : GoStr)
    (gen : Nat → GoStr → Except GoStr GoStr) (sys : GoStr → CmdResult)
    (resp : Nat → GoStr) (hb : flags.yesSure = false)
    (hd : flags.dryRun = false) :
    ((mainPipeline flags ui p gen sys resp).runs.all
      fun rc => rc.requireConfirm && (!rc.out.spawned || rc.out.prompted)) = true := by
  obtain ⟨fd, fy⟩ := flags
  dsimp only at hb hd
  subst hb hd
  unfold mainPipeline
  cases hg0 : gen 0 p with
  | error e => simp
  | ok raw =>
    dsimp only
    by_cases hd1 : hasPfx dangerPfx (cleanCommand raw) = true
    · rw [if_pos (by rw [hd1]; rfl)]
      simp
    · have hd1' : hasPfx dangerPfx (cleanCommand raw) = false := by
        simpa using hd1
      rw [if_neg (by simp [hd1'])]
      rw [hd1']
      exact execStage_all_confirmed ..

/-- **C10, witness.**  The gating invariant at a concrete non-dangerous
command with bypass unset and dry-run off. -/
theorem confirmation_gate_witness :
    ((mainPipeline ⟨false, false⟩ "u".data "p".data
        (fun _ _ => Except.ok "ls".data) (fun _ => ⟨[], [], none⟩)
        (fun _ => [])).runs.all
      fun rc => rc.requireConfirm && (!rc.out.spawned || rc.out.prompted)) = true :=
  confirmation_gate ⟨false, false⟩ "u".data "p".data
    (fun _ _ => Except.ok "ls".data) (fun _ => ⟨[], [], none⟩)
    (fun _ => []) rfl rfl

end Nlch
